import Mathlib

/-!
Verification development for the polymaster-collector daemon.

Shallow embedding of the market-collection core:
* `src/collector/db.py` — market store and query helpers over the
  `markets` table (modelled as a list of rows; SQLite's
  `UNIQUE(platform, market_id)` becomes the `wellKeyed` predicate).
* `src/collector/platforms/polymarket.py` and `kalshi.py` — the two
  venue adapters (pagination, normalisation, resolution detection).
* `src/collector/daemon.py` — the phase runners and backoff helpers.

Modelling conventions:
* Timestamps are naturals.  The code stores fixed-format ISO-8601 UTC
  strings (`_now_iso`) and compares them as SQLite TEXT; lexicographic
  order on those strings coincides with chronological order, so `Nat`
  with `≤` is a faithful abstraction.
* Prices and volumes are exact rationals (`ℚ`); `float(...)` parses
  that may fail are modelled with `Option ℚ` (`none` = missing or
  unparseable — the code stores NULL, never coercing to 0).
* Network I/O appears as explicit response parameters; a request that
  raises (connection error, timeout, non-2xx, JSON decode failure) is a
  distinguished constructor.
-/

namespace Polymaster

/-- One row of the `markets` table (db.py schema, lines 23-41).
`resolution`/`resolved_at` are NULL until the resolve phase sets them. -/
structure MarketRow where
  platform : String
  market_id : String
  slug : Option String
  title : Option String
  description : Option String
  category : Option String
  outcomes : Option String
  volume : Option ℚ
  liquidity : Option ℚ
  end_date : Option Nat
  status : String
  resolution : Option String
  resolved_at : Option Nat
  created_at : Nat
  updated_at : Nat
  deriving Repr, DecidableEq

/-- One row of the `price_snapshots` table as built by the adapters
(`snapshot_at` is filled in by `insert_snapshots_bulk` and carried
implicitly). -/
structure Snap where
  market_id : String
  platform : String
  yes_price : Option ℚ
  no_price : Option ℚ
  volume : Option ℚ
  liquidity : Option ℚ
  spread : Option ℚ
  deriving Repr, DecidableEq

/-- The keyword-argument dictionary passed to `upsert_market`.
An outer `none` means the key is absent from the dict (the column is
not part of the INSERT and not merged on conflict); for nullable
columns the inner `Option` is the SQL value (inner `none` = NULL).
`outcomes` is supplied as a list and serialised inside `upsert_market`
(db.py line 103-104); `resolution` is only ever supplied with a
concrete value; `resolved_at` is never supplied by any caller. -/
structure UpsertArgs where
  platform : String
  market_id : String
  slug : Option (Option String) := none
  title : Option (Option String) := none
  description : Option (Option String) := none
  category : Option (Option String) := none
  outcomes : Option (List String) := none
  volume : Option (Option ℚ) := none
  liquidity : Option (Option ℚ) := none
  end_date : Option (Option Nat) := none
  status : Option String := none
  resolution : Option String := none
  created_at : Option Nat := none
  deriving Repr, DecidableEq

/-- Model of `json.dumps` on a list of strings — only determinism and
injectivity on the values that occur matter to the claims. -/
def jsonDumpsList (l : List String) : String :=
  "[" ++ String.intercalate ", " (l.map (fun s => "\x22" ++ s ++ "\x22")) ++ "]"

abbrev Store := List MarketRow

/-- The `(platform, market_id)` key of `UNIQUE(platform, market_id)`. -/
def keyOfR (r : MarketRow) : String × String := (r.platform, r.market_id)

/-- The store respects the schema's UNIQUE constraint: no two rows
share a `(platform, market_id)` key. -/
def wellKeyed (db : Store) : Prop := (db.map keyOfR).Nodup

/-- Row lookup by key (used to state counterexamples). -/
def findRow (db : Store) (p mid : String) : Option MarketRow :=
  db.find? (fun r => r.platform == p && r.market_id == mid)

/-- The row INSERTed when no key conflict exists: supplied columns get
their values, the rest take the schema defaults
(`status DEFAULT 'active'`, `created_at`/`updated_at` DEFAULT now,
NULL otherwise).  `upsert_market` always adds `created_at` (setdefault)
and `updated_at = now` to the dict before building the SQL. -/
def insertRow (a : UpsertArgs) (now : Nat) : MarketRow where
  platform := a.platform
  market_id := a.market_id
  slug := a.slug.getD none
  title := a.title.getD none
  description := a.description.getD none
  category := a.category.getD none
  outcomes := a.outcomes.map jsonDumpsList
  volume := a.volume.getD none
  liquidity := a.liquidity.getD none
  end_date := a.end_date.getD none
  status := a.status.getD "active"
  resolution := a.resolution
  resolved_at := none
  created_at := a.created_at.getD now
  updated_at := now

/-- The `ON CONFLICT ... DO UPDATE SET c = excluded.c` merge: every
supplied column except `platform`, `market_id`, `created_at` is
overwritten (db.py lines 109-111); `updated_at` is always in the dict
so it becomes `now`. -/
def mergeRow (r : MarketRow) (a : UpsertArgs) (now : Nat) : MarketRow where
  platform := r.platform
  market_id := r.market_id
  slug := a.slug.getD r.slug
  title := a.title.getD r.title
  description := a.description.getD r.description
  category := a.category.getD r.category
  outcomes := ((a.outcomes.map jsonDumpsList).map some).getD r.outcomes
  volume := a.volume.getD r.volume
  liquidity := a.liquidity.getD r.liquidity
  end_date := a.end_date.getD r.end_date
  status := a.status.getD r.status
  resolution := (a.resolution.map some).getD r.resolution
  resolved_at := r.resolved_at
  created_at := r.created_at
  updated_at := now

/-- Whether a stored row conflicts with the INSERT's key. -/
def upsertKeyHit (a : UpsertArgs) (r : MarketRow) : Bool :=
  r.platform == a.platform && r.market_id == a.market_id

/-- `upsert_market` (db.py lines 98-116): INSERT, or on a
`(platform, market_id)` conflict UPDATE the conflicting row via
`mergeRow`.  The UNIQUE constraint makes at most one row conflict; the
map below touches exactly the rows with the matching key. -/
def upsert_market (db : Store) (a : UpsertArgs) (now : Nat) : Store :=
  match db.find? (upsertKeyHit a) with
  | none => db ++ [insertRow a now]
  | some _ =>
      db.map (fun r => if upsertKeyHit a r then mergeRow r a now else r)

/-- `get_markets_by_status` (db.py lines 119-128):
`SELECT * FROM markets WHERE status = ? [AND platform = ?]`. -/
def get_markets_by_status (db : Store) (status : String)
    (platform : Option String) : Store :=
  db.filter (fun r =>
    r.status == status &&
      (match platform with
       | none => true
       | some p => r.platform == p))

/-- `get_unresolved_past_end` (db.py lines 131-141):
`WHERE status IN ('active','closed') AND end_date IS NOT NULL AND
end_date <= now ORDER BY end_date`.  SQL leaves the order of equal
`end_date` values unspecified; a stable insertion sort realises one
admissible order. -/
def get_unresolved_past_end (db : Store) (now : Nat) : Store :=
  List.insertionSort
    (fun x y => x.end_date.getD 0 ≤ y.end_date.getD 0)
    (db.filter (fun r =>
      (r.status == "active" || r.status == "closed") &&
        (match r.end_date with
         | none => false
         | some e => decide (e ≤ now))))

/-- `UPDATE markets SET ... WHERE platform = ? AND market_id = ?`
applied with the row transformer `f`. -/
def updWhere (p mid : String) (f : MarketRow → MarketRow) (db : Store) : Store :=
  db.map (fun r => if r.platform == p && r.market_id == mid then f r else r)

/-- `mark_resolved` (db.py lines 144-152). -/
def mark_resolved (db : Store) (p mid res : String) (now : Nat) : Store :=
  updWhere p mid
    (fun r => { r with status := "resolved", resolution := some res,
                       resolved_at := some now, updated_at := now }) db

/-- `mark_closed` (db.py lines 155-161). -/
def mark_closed (db : Store) (p mid : String) (now : Nat) : Store :=
  updWhere p mid
    (fun r => { r with status := "closed", updated_at := now }) db

/-! ### Backoff helpers (daemon.py lines 25, 175-182)

`self._backoff` is a `dict[str, float]`, modelled as an association
list with dict-style get / assign / pop. -/

abbrev BackoffMap := List (String × ℚ)

/-- Python dict assignment `bo[key] = v`. -/
def dictSet (bo : BackoffMap) (key : String) (v : ℚ) : BackoffMap :=
  (key, v) :: bo.filter (fun p => p.1 ≠ key)

/-- `Collector._sleep_backoff`: reads the stored delay (default 1.0),
stores `min(current * 2, 300)` and sleeps `current` — it returns the
pre-doubling delay actually slept. -/
def backoffFail (bo : BackoffMap) (key : String) : BackoffMap × ℚ :=
  let current := ((bo.lookup key).getD 1)
  (dictSet bo key (min (current * 2) 300), current)

/-- `Collector._reset_backoff`: `self._backoff.pop(key, None)`. -/
def backoffReset (bo : BackoffMap) (key : String) : BackoffMap :=
  bo.filter (fun p => p.1 ≠ key)

/-- State after `n` consecutive `_sleep_backoff` calls for `key`. -/
def failTimes (bo : BackoffMap) (key : String) : Nat → BackoffMap
  | 0 => bo
  | n + 1 => (backoffFail (failTimes bo key n) key).1

/-- Delay slept on failure number `n + 1` of a consecutive run. -/
def sleptOn (bo : BackoffMap) (key : String) (n : Nat) : ℚ :=
  (backoffFail (failTimes bo key n) key).2

/-! ### Polymarket adapter (platforms/polymarket.py) -/

/-- A raw Gamma API market object, restricted to the fields the client
reads.  String fields are `none` when the key is absent (Python
`m.get(...)` yields `None`); `outcomes`/`outcomePrices` arrive as JSON
strings — `none` models an unparseable string (`json.loads` failure),
and a `none` element models a value `float()` rejects. -/
structure PolyRaw where
  conditionId : Option String := none
  id : Option String := none
  slug : Option String := none
  question : Option String := none
  description : Option String := none
  groupItemTitle : Option String := none
  outcomes : Option (List String) := some []
  outcomePrices : Option (List (Option ℚ)) := some []
  volume : Option ℚ := none
  volumeNum : Option ℚ := none
  liquidity : Option ℚ := none
  liquidityNum : Option ℚ := none
  endDate : Option Nat := none
  endDateIso : Option Nat := none
  closed : Bool := false
  resolved : Bool := false
  deriving Repr, DecidableEq

/-- Python `a or b` on numbers: `a` when truthy (present and nonzero),
else `b` — so a volume of `0` falls through to the fallback field. -/
def pyOrQ (a b : Option ℚ) : Option ℚ :=
  match a with
  | some x => if x = 0 then b else some x
  | none => b

/-- `str(m.get("conditionId") or m.get("id", ""))` — the market id used
for deduplication and normalisation; an absent or empty `conditionId`
falls back to `id`. -/
def cidOf (m : PolyRaw) : String :=
  let c := m.conditionId.getD ""
  if c = "" then m.id.getD "" else c

/-- `PolymarketClient._normalise` (lines 119-142): Gamma market object
to DB columns.  The description is truncated to 2000 characters. -/
def polyNormalise (m : PolyRaw) : UpsertArgs where
  platform := "polymarket"
  market_id := cidOf m
  slug := some (some (m.slug.getD ""))
  title := some (some (m.question.getD ""))
  description := some (some ((m.description.getD "").take 2000))
  category := some (some (m.groupItemTitle.getD ""))
  outcomes := some (m.outcomes.getD [])
  volume := some (pyOrQ m.volume m.volumeNum)
  liquidity := some (pyOrQ m.liquidity m.liquidityNum)
  end_date := some (m.endDate.orElse (fun _ => m.endDateIso))
  status := some "active"

/-- `PolymarketClient._extract_snapshot` (lines 54-81): price snapshot
from a raw discovery object; `none` when prices are missing or
unparseable or the id is empty. -/
def polyExtractSnapshot (m : PolyRaw) : Option Snap :=
  match m.outcomePrices with
  | none => none
  | some [] => none
  | some (y :: rest) =>
      match y with
      | none => none
      | some yes =>
          let noRes : Option (Option ℚ) :=
            match rest with
            | [] => some none
            | n :: _ => match n with
                        | none => none
                        | some v => some (some v)
          match noRes with
          | none => none
          | some noPrice =>
              let spread := noPrice.map (fun n => |yes - n|)
              if cidOf m = "" then none
              else some
                { market_id := cidOf m
                  platform := "polymarket"
                  yes_price := some yes
                  no_price := noPrice
                  volume := pyOrQ m.volume m.volumeNum
                  liquidity := pyOrQ m.liquidity m.liquidityNum
                  spread := spread }

/-- One step of the dedup loop body (lines 103-109): add the batch
entries whose id is nonempty and unseen. -/
def polyAddBatch : List PolyRaw → List String → List PolyRaw → Nat →
    List String × List PolyRaw × Nat
  | [], seen, acc, newCount => (seen, acc, newCount)
  | m :: rest, seen, acc, newCount =>
      let cid := cidOf m
      if cid ≠ "" ∧ cid ∉ seen then
        polyAddBatch rest (cid :: seen) (acc ++ [m]) (newCount + 1)
      else
        polyAddBatch rest seen acc newCount

/-- `PolymarketClient._fetch_all_markets` (lines 83-117): offset-paged
fetch with `max_offset = 5000`, page size 100, deduplicating by id;
stops on an empty page, a page with no new ids, or a short page.
`pages` maps an offset to the venue's response for it.  The fuel
strictly exceeds the number of admissible offsets (0, 100, …, 5000),
so recursion never stops early because of it. -/
def polyFetchGo (pages : Nat → List PolyRaw) :
    Nat → Nat → List String → List PolyRaw → List PolyRaw
  | 0, _, _, acc => acc
  | fuel + 1, offset, seen, acc =>
      if offset > 5000 then acc
      else
        let batch := pages offset
        if batch = [] then acc
        else
          let res := polyAddBatch batch seen acc 0
          if res.2.2 = 0 then res.2.1
          else if batch.length < 100 then res.2.1
          else polyFetchGo pages fuel (offset + 100) res.1 res.2.1

def polyFetchAllMarkets (pages : Nat → List PolyRaw) : List PolyRaw :=
  polyFetchGo pages 52 0 [] []

/-- `PolymarketClient.discover_markets` (lines 38-52): the PAIR of
normalised market dicts and the price snapshots captured from the same
response. -/
def polyDiscoverMarkets (pages : Nat → List PolyRaw) :
    List UpsertArgs × List Snap :=
  let raw := polyFetchAllMarkets pages
  (raw.map polyNormalise, raw.filterMap polyExtractSnapshot)

/-- The body the Gamma per-market price endpoint returns to
`fetch_prices` (after the `data_list[0]` unwrapping). -/
structure PolyPriceBody where
  outcomePrices : Option (List (Option ℚ)) := some []
  volume : Option ℚ := none
  volumeNum : Option ℚ := none
  liquidity : Option ℚ := none
  liquidityNum : Option ℚ := none
  deriving Repr, DecidableEq

/-- `PolymarketClient.fetch_prices` loop body (lines 148-195) over the
(at most 200) selected markets.  `resp slug = none` covers 404/422, an
empty response list, and the request exceptions caught in the loop —
all `continue`.  An element `float()` cannot parse raises a ValueError
OUTSIDE the try-block, aborting the whole call (the daemon catches
it). -/
def polySnapOfBody (mid : String) (body : PolyPriceBody) : Except String Snap :=
  let base : Snap :=
    { market_id := mid
      platform := "polymarket"
      yes_price := none
      no_price := none
      volume := pyOrQ body.volume body.volumeNum
      liquidity := pyOrQ body.liquidity body.liquidityNum
      spread := none }
  match body.outcomePrices.getD [] with
  | [] => .ok base
  | x :: rest =>
      match x with
      | none => .error "ValueError"
      | some yes =>
          match rest with
          | [] => .ok { base with yes_price := some yes }
          | y :: _ =>
              match y with
              | none => .error "ValueError"
              | some no =>
                  .ok { base with yes_price := some yes, no_price := some no,
                                  spread := some |yes - no| }

def polyFetchLoop (resp : String → Option PolyPriceBody) :
    Store → Except String (List Snap)
  | [] => .ok []
  | mkt :: rest =>
      match mkt.slug with
      | none => polyFetchLoop resp rest
      | some s =>
          if s = "" then polyFetchLoop resp rest
          else
            match resp s with
            | none => polyFetchLoop resp rest
            | some body =>
                match polySnapOfBody mkt.market_id body with
                | .error e => .error e
                | .ok snap =>
                    match polyFetchLoop resp rest with
                    | .error e => .error e
                    | .ok tail => .ok (snap :: tail)

/-- `PolymarketClient.fetch_prices` (lines 148-195): only the first
`max_markets = 200` tracked markets are refreshed per cycle. -/
def polyFetchPrices (markets : Store) (resp : String → Option PolyPriceBody) :
    Except String (List Snap) :=
  polyFetchLoop resp (markets.take 200)

/-- Outcome of an HTTP GET as the clients see it: a raised exception
(connection error, timeout, `raise_for_status`, JSON decode), a 404,
or a parsed body. -/
inductive HttpResult (β : Type) where
  | netErr
  | notFound
  | ok (body : β)
  deriving Repr, DecidableEq

/-- A JSON value handed to Python's `float(...)`: a number or numeric
string (`float` succeeds), a non-numeric string (`float` raises
ValueError), or a null / list / object (`float` raises TypeError —
which `check_resolution`'s narrow `except (ValueError, IndexError)`
does NOT catch). -/
inductive PyFloatArg where
  | num (q : ℚ)
  | str
  | nonNum
  deriving Repr, DecidableEq

/-- Gamma per-market body fields read by `check_resolution`.
`outcomePrices = none` models a string `json.loads` rejects (caught,
`return None`). -/
structure PolyResBody where
  closed : Bool := false
  resolved : Bool := false
  outcomePrices : Option (List PyFloatArg) := some []
  deriving Repr, DecidableEq

/-- A parsed 200 body as `check_resolution` sees it after its
try-block: a JSON object, or any non-object value, on which the
subsequent `data.get(...)` (polymarket.py line 221) raises an uncaught
AttributeError. -/
inductive PolyResJson where
  | obj (b : PolyResBody)
  | nonObj
  deriving Repr, DecidableEq

/-- `PolymarketClient.check_resolution` (lines 201-246).  Request
exceptions and 404 are caught inside the try-block and mapped to
`none`; a market not closed/resolved is `none`; otherwise
`float(outcome_prices[0])` decides — `>= 0.99` is YES, `<= 0.01` is
NO, anything else `none`.  The function can also RAISE past its own
handlers: `data.get` on a non-object body (AttributeError, line 221)
and `float` on a null/list/object element (TypeError, not in the
`except (ValueError, IndexError)` at lines 235-238); these escape to
`run_resolve`'s per-candidate except and are modelled as `.error`. -/
def polyCheckResolution (resp : HttpResult PolyResJson) :
    Except String (Option String) :=
  match resp with
  | .netErr => .ok none
  | .notFound => .ok none
  | .ok j =>
      match j with
      | .nonObj => .error "AttributeError"
      | .obj b =>
          if !(b.closed || b.resolved) then .ok none
          else
            match b.outcomePrices with
            | none => .ok none
            | some [] => .ok none
            | some (y :: _) =>
                match y with
                | .str => .ok none
                | .nonNum => .error "TypeError"
                | .num yes =>
                    .ok (if yes ≥ 99 / 100 then some "YES"
                         else if yes ≤ 1 / 100 then some "NO"
                         else none)

/-- `PolymarketClient._normalise_resolved` (lines 286-308): backfill
normalisation — status from the `resolved` flag, resolution from a
collapsed first outcome price when decisive. -/
def polyNormaliseResolved (m : PolyRaw) : UpsertArgs :=
  let base := polyNormalise m
  let base := { base with
    status := some (if m.resolved then "resolved" else "closed") }
  match m.outcomePrices with
  | some (some y :: _) =>
      if y ≥ 99 / 100 then { base with resolution := some "YES" }
      else if y ≤ 1 / 100 then { base with resolution := some "NO" }
      else base
  | _ => base

/-! ### Kalshi adapter (platforms/kalshi.py) -/

/-- A raw Kalshi market object, restricted to the fields the client
reads.  Numeric fields hold the parsed value (`none` = absent or
unparseable, matching the internal try/except of `_cents_to_frac` and
`_float`); time fields are `none` when absent or empty. -/
structure KalshiRaw where
  ticker : Option String := none
  title : Option String := none
  subtitle : Option String := none
  category : Option String := none
  status : Option String := none
  yes_bid : Option ℚ := none
  yes_ask : Option ℚ := none
  no_bid : Option ℚ := none
  volume : Option ℚ := none
  open_interest : Option ℚ := none
  close_time : Option Nat := none
  expiration_time : Option Nat := none
  result : Option String := none
  deriving Repr, DecidableEq

/-- `_cents_to_frac` (kalshi.py lines 221-229): divide by 100 exactly
when the raw value exceeds 1, else keep it as-is. -/
def centsToFrac (val : Option ℚ) : Option ℚ :=
  match val with
  | none => none
  | some v => some (if v > 1 then v / 100 else v)

/-- The yes-price selection shared by discover/normalise/fetch_prices:
midpoint of bid and ask when both are known, else whichever side is
known (possibly none). -/
def kalshiYesPrice (m : KalshiRaw) : Option ℚ :=
  match centsToFrac m.yes_bid, centsToFrac m.yes_ask with
  | some b, some a => some ((b + a) / 2)
  | some b, none => some b
  | none, x => x

/-- `status_map.get(m.get("status", ""), "active")` (kalshi.py line
113). -/
def kalshiStatusMap (s : String) : String :=
  if s = "open" then "active"
  else if s = "closed" then "closed"
  else if s = "settled" then "resolved"
  else "active"

/-- `KalshiClient._normalise` (lines 97-127). -/
def kalshiNormalise (m : KalshiRaw) : UpsertArgs where
  platform := "kalshi"
  market_id := m.ticker.getD ""
  slug := some (some (m.ticker.getD ""))
  title := some (some (m.title.getD ""))
  description := some (some (m.subtitle.getD ""))
  category := some (some (m.category.getD ""))
  outcomes := some ["Yes", "No"]
  volume := some m.volume
  liquidity := some m.open_interest
  end_date := some (m.close_time.orElse (fun _ => m.expiration_time))
  status := some (kalshiStatusMap (m.status.getD ""))

/-- The snapshot built inline during Kalshi discovery (lines 48-67):
`no_price = 1 - yes_price` and `spread = |yes - no|` whenever a yes
price exists; no snapshot otherwise. -/
def kalshiDiscoverSnap (m : KalshiRaw) : Option Snap :=
  match kalshiYesPrice m with
  | none => none
  | some yes =>
      some
        { market_id := m.ticker.getD ""
          platform := "kalshi"
          yes_price := some yes
          no_price := some (1 - yes)
          volume := m.volume
          liquidity := m.open_interest
          spread := some |yes - (1 - yes)| }

/-- `KalshiClient._fetch_all_markets` (lines 70-95): cursor-paged,
`max_pages = 50`, NO deduplication — every batch is appended whole.
`resp` maps the current cursor (the empty string standing for the
initial missing cursor, both being untruthy in the code) to the page
and the next cursor; paging stops on an empty next cursor, an empty
batch, or the page cap. -/
def kalshiFetchGo (resp : String → List KalshiRaw × String) :
    Nat → String → List KalshiRaw → List KalshiRaw
  | 0, _, acc => acc
  | fuel + 1, cursor, acc =>
      let (batch, next) := resp cursor
      let acc2 := acc ++ batch
      if next = "" ∨ batch = [] then acc2
      else kalshiFetchGo resp fuel next acc2

def kalshiFetchAllMarkets (resp : String → List KalshiRaw × String) :
    List KalshiRaw :=
  kalshiFetchGo resp 50 "" []

/-- `KalshiClient.discover_markets` (lines 37-68): the PAIR of
normalised market dicts and inline snapshots. -/
def kalshiDiscoverMarkets (resp : String → List KalshiRaw × String) :
    List UpsertArgs × List Snap :=
  let raw := kalshiFetchAllMarkets resp
  (raw.map kalshiNormalise, raw.filterMap kalshiDiscoverSnap)

/-- `KalshiClient.fetch_prices` loop (lines 140-169): re-fetch the open
markets and keep only those whose ticker is tracked. -/
def kalshiFetchLoop (tracked : List String) : List KalshiRaw → List Snap
  | [] => []
  | m :: rest =>
      let ticker := m.ticker.getD ""
      if ticker ∉ tracked then kalshiFetchLoop tracked rest
      else
        let yes := kalshiYesPrice m
        let no := yes.map (fun y => 1 - y)
        let spread : Option ℚ :=
          match yes, no with
          | some a, some b => some |a - b|
          | _, _ => none
        { market_id := ticker
          platform := "kalshi"
          yes_price := yes
          no_price := no
          volume := m.volume
          liquidity := m.open_interest
          spread := spread } :: kalshiFetchLoop tracked rest

/-- `KalshiClient.fetch_prices` (lines 133-169), given the re-fetched
open-market list. -/
def kalshiFetchPrices (markets : Store) (raw : List KalshiRaw) : List Snap :=
  kalshiFetchLoop (markets.map (fun m => m.market_id)) raw

/-- The `result` field as `(data.get("result") or "").strip()` sees
it: absent/null/falsy (the `or` yields `""`), a string, or a truthy
non-string on which `.strip()` raises an uncaught AttributeError
(kalshi.py line 195). -/
inductive KalshiResultVal where
  | absent
  | str (s : String)
  | nonStrTruthy
  deriving Repr, DecidableEq

/-- The market object `check_resolution` reads. -/
structure KalshiResBody where
  status : Option String := none
  result : KalshiResultVal := .absent
  deriving Repr, DecidableEq

/-- The `"market"` value as the code leaves the try-block: a JSON
object, or a non-object value on which `data.get("status")`
(kalshi.py line 192) raises an uncaught AttributeError.  (A non-object
TOP-LEVEL body makes the `.get` inside the try raise, which is caught
— that case behaves like `netErr`.) -/
inductive KalshiResJson where
  | obj (b : KalshiResBody)
  | nonObj
  deriving Repr, DecidableEq

/-- `KalshiClient.check_resolution` (lines 175-200).  Request
exceptions and 404 are caught and mapped to `none`; only
`status == "settled"` with a yes/no `result` (stripped, lowercased)
yields an outcome.  The function can RAISE past its handler:
`data.get` on a non-object market value and `.strip()` on a truthy
non-string result (AttributeError, lines 192 and 195), modelled as
`.error`. -/
def kalshiCheckResolution (resp : HttpResult KalshiResJson) :
    Except String (Option String) :=
  match resp with
  | .netErr => .ok none
  | .notFound => .ok none
  | .ok j =>
      match j with
      | .nonObj => .error "AttributeError"
      | .obj b =>
          if b.status ≠ some "settled" then .ok none
          else
            match b.result with
            | .nonStrTruthy => .error "AttributeError"
            | .absent => .ok none
            | .str s =>
                if s.trim.toLower = "yes" then .ok (some "YES")
                else if s.trim.toLower = "no" then .ok (some "NO")
                else .ok none

/-! ### Daemon phase runners (daemon.py) -/

/-- A value produced by iterating the PAIR that `discover_markets`
returns: Python `for m in markets` over the `(markets, snapshots)`
tuple yields the two component LISTS in turn. -/
inductive PyDiscoverElem where
  | marketList (l : List UpsertArgs)
  | snapList (l : List Snap)
  deriving Repr

/-- `for m in markets` where `markets` is the returned pair. -/
def pyIterPair (p : List UpsertArgs × List Snap) : List PyDiscoverElem :=
  [.marketList p.1, .snapList p.2]

/-- `upsert_market(self.db, **m)` where `m` is one of the component
lists: `**` demands a mapping, so splatting a list raises TypeError
before the upsert body runs, whichever list it is. -/
def pyKwSplat : PyDiscoverElem → Except String UpsertArgs
  | _ => .error "TypeError: upsert_market() argument after ** must be a mapping, not list"

/-- The try-block of one adapter inside `Collector.run_discover`
(daemon.py lines 67-72 / 78-83): iterate the value returned by
`discover_markets()`, upsert each element, then add `len(markets)` —
the length of the pair, i.e. 2 — to the count.  With the pair-valued
adapters the first loop element is already a list and the splat raises,
so the `.ok` branch is unreachable. -/
def discoverAdapterTry (db : Store) (res : List UpsertArgs × List Snap)
    (now : Nat) : Except String (Store × Nat) :=
  ((pyIterPair res).foldlM
      (fun (st : Store) v => do
        let a ← pyKwSplat v
        .ok (upsert_market st a now))
      db).map (fun db2 => (db2, (pyIterPair res).length))

/-- `Collector.run_discover` (daemon.py lines 63-90): per enabled
adapter, try the upsert loop; on any exception log it and run the
backoff for that adapter's discover domain, contributing nothing to
the count.  Returns (store, count, backoff state). -/
def run_discover (db : Store) (polyEnabled kalshiEnabled : Bool)
    (polyRes kalshiRes : List UpsertArgs × List Snap)
    (bo : BackoffMap) (now : Nat) : Store × Nat × BackoffMap :=
  let (db1, c1, bo1) :=
    if polyEnabled then
      match discoverAdapterTry db polyRes now with
      | .ok (d, n) => (d, n, backoffReset bo "poly_discover")
      | .error _ => (db, 0, (backoffFail bo "poly_discover").1)
    else (db, 0, bo)
  let (db2, c2, bo2) :=
    if kalshiEnabled then
      match discoverAdapterTry db1 kalshiRes now with
      | .ok (d, n) => (d, n, backoffReset bo1 "kalshi_discover")
      | .error _ => (db1, 0, (backoffFail bo1 "kalshi_discover").1)
    else (db1, 0, bo1)
  (db2, c1 + c2, bo2)

/-- `Collector.run_snapshot` (daemon.py lines 92-119): per enabled
adapter, query the ACTIVE markets of that platform, fetch prices for
exactly that list and bulk-insert the snapshots; a failure contributes
nothing.  Returns the inserted snapshot rows and the count
(`insert_snapshots_bulk` returns `len(rows)`).  The markets table is
never written by this phase.  `kalshiOpen` is the outcome of the
client's bulk re-fetch of open markets. -/
def snapshotPolyPart (db : Store) (polyEnabled : Bool)
    (polyResp : String → Option PolyPriceBody) : List Snap × Nat :=
  if polyEnabled then
    if (get_markets_by_status db "active" (some "polymarket")).isEmpty then ([], 0)
    else
      match polyFetchPrices (get_markets_by_status db "active" (some "polymarket"))
          polyResp with
      | .ok snaps => (snaps, snaps.length)
      | .error _ => ([], 0)
  else ([], 0)

def snapshotKalshiPart (db : Store) (kalshiEnabled : Bool)
    (kalshiOpen : Except String (List KalshiRaw)) : List Snap × Nat :=
  if kalshiEnabled then
    if (get_markets_by_status db "active" (some "kalshi")).isEmpty then ([], 0)
    else
      match kalshiOpen with
      | .ok raw =>
          (kalshiFetchPrices (get_markets_by_status db "active" (some "kalshi")) raw,
            (kalshiFetchPrices (get_markets_by_status db "active" (some "kalshi"))
              raw).length)
      | .error _ => ([], 0)
  else ([], 0)

def run_snapshot (db : Store) (polyEnabled kalshiEnabled : Bool)
    (polyResp : String → Option PolyPriceBody)
    (kalshiOpen : Except String (List KalshiRaw)) : List Snap × Nat :=
  ((snapshotPolyPart db polyEnabled polyResp).1
      ++ (snapshotKalshiPart db kalshiEnabled kalshiOpen).1,
    (snapshotPolyPart db polyEnabled polyResp).2
      + (snapshotKalshiPart db kalshiEnabled kalshiOpen).2)

/-- Resolution check for a candidate as `run_resolve` dispatches it:
`client = self.poly if platform == "polymarket" else self.kalshi`.
`.error` is an exception escaping the client into the daemon's
per-candidate except. -/
def checkFor (polyResp : String → HttpResult PolyResJson)
    (kalshiResp : String → HttpResult KalshiResJson)
    (platform mid : String) : Except String (Option String) :=
  if platform == "polymarket" then polyCheckResolution (polyResp mid)
  else kalshiCheckResolution (kalshiResp mid)

/-- Whether the client the candidate dispatches to is constructed. -/
def enabledFor (polyEnabled kalshiEnabled : Bool) (platform : String) : Bool :=
  if platform == "polymarket" then polyEnabled else kalshiEnabled

/-- One iteration of the `run_resolve` candidate loop (daemon.py lines
125-142): skip when the dispatched client is None; a truthy resolution
marks resolved and bumps the count; no resolution marks an ACTIVE
candidate closed; an exception raised by `check_resolution` reaches
the per-candidate `except` (lines 141-142), which logs a warning and
leaves the candidate's row untouched. -/
def resolveStep (polyEnabled kalshiEnabled : Bool)
    (polyResp : String → HttpResult PolyResJson)
    (kalshiResp : String → HttpResult KalshiResJson) (now : Nat)
    (acc : Store × Nat) (mkt : MarketRow) : Store × Nat :=
  if enabledFor polyEnabled kalshiEnabled mkt.platform then
    match checkFor polyResp kalshiResp mkt.platform mkt.market_id with
    | .error _ => acc
    | .ok (some res) =>
        (mark_resolved acc.1 mkt.platform mkt.market_id res now, acc.2 + 1)
    | .ok none =>
        if mkt.status == "active" then
          (mark_closed acc.1 mkt.platform mkt.market_id now, acc.2)
        else acc
  else acc

/-- `Collector.run_resolve` (daemon.py lines 121-146): fetch the
unresolved-past-end candidates once, then fold the per-candidate step
over them. -/
def run_resolve (polyEnabled kalshiEnabled : Bool)
    (polyResp : String → HttpResult PolyResJson)
    (kalshiResp : String → HttpResult KalshiResJson)
    (db : Store) (now : Nat) : Store × Nat :=
  (get_unresolved_past_end db now).foldl
    (resolveStep polyEnabled kalshiEnabled polyResp kalshiResp now) (db, 0)

/-- `Collector.run_backfill` (daemon.py lines 152-169): upsert every
market of each enabled adapter's `fetch_resolved_markets()` result
(these return plain LISTS, so this phase's loop works) and count
them. -/
def run_backfill (db : Store) (polyEnabled kalshiEnabled : Bool)
    (polyRes kalshiRes : List UpsertArgs) (now : Nat) : Store × Nat :=
  let (db1, c1) :=
    if polyEnabled then
      (polyRes.foldl (fun d a => upsert_market d a now) db, polyRes.length)
    else (db, 0)
  let (db2, c2) :=
    if kalshiEnabled then
      (kalshiRes.foldl (fun d a => upsert_market d a now) db1, kalshiRes.length)
    else (db1, 0)
  (db2, c1 + c2)

/-! ### Concrete fixtures

Inputs used to instantiate theorems, witnesses and counterexamples.
`polyTestRaw`/`kalshiTestRaw` mirror the repository's own
`tests/test_daemon.py::test_discover_phase` fixtures;
`kalshiScenarioRaw` mirrors `tests/test_platforms.py::test_kalshi_fetch_prices`
(the spec's yes_bid=65 / yes_ask=67 scenario). -/

def polyTestRaw : PolyRaw :=
  { conditionId := some "0xabc", id := some "1",
    question := some "Test Poly Market", outcomes := some ["Yes", "No"],
    volume := some 1000, endDate := some 20261231 }

def kalshiTestRaw : KalshiRaw :=
  { ticker := some "TEST-TICKER", title := some "Test Kalshi Market",
    status := some "open", yes_bid := some 50, yes_ask := some 52,
    volume := some 500, close_time := some 20261231 }

/-- A single Polymarket page at offset 0, nothing further. -/
def polyPagesTest : Nat → List PolyRaw :=
  fun o => if o = 0 then [polyTestRaw] else []

/-- A single Kalshi page with an empty next cursor. -/
def kalshiPagesTest : String → List KalshiRaw × String :=
  fun _ => ([kalshiTestRaw], "")

/-- Two Kalshi pages that both contain the same ticker: the first page
hands out cursor "c", the second ends the pagination. -/
def kalshiDupPages : String → List KalshiRaw × String :=
  fun c => if c = "" then ([kalshiTestRaw], "c") else ([kalshiTestRaw], "")

/-- The venue object of the spec's price-normalisation scenario. -/
def kalshiScenarioRaw : KalshiRaw :=
  { ticker := some "FED-25MAR-T4.50", status := some "open",
    yes_bid := some 65, yes_ask := some 67,
    volume := some 10000, open_interest := some 5000 }

/-- A stored active Kalshi market tracking the scenario's ticker. -/
def kalshiTrackedRow : MarketRow :=
  { platform := "kalshi", market_id := "FED-25MAR-T4.50",
    slug := some "FED-25MAR-T4.50", title := some "Fed rate above 4.50?",
    description := none, category := none, outcomes := none,
    volume := none, liquidity := none, end_date := none, status := "active",
    resolution := none, resolved_at := none, created_at := 0, updated_at := 0 }

/-- Example upsert arguments (an insert of a fresh market). -/
def upsertArgsEx : UpsertArgs :=
  { platform := "polymarket", market_id := "m1",
    title := some (some "Will it rain?"), status := some "active",
    end_date := some (some 100) }

/-- What one `run_resolve` loop iteration does to its own candidate:
a definite outcome marks it resolved with resolution and resolved_at
recorded; no outcome closes it when it was active and leaves it
untouched otherwise; a check that raises leaves it untouched (the
daemon's per-candidate except).  (Specification device used to state
theorems about `resolveStep`.) -/
def resolveTransform (c : MarketRow) (check : Except String (Option String))
    (now : Nat) : MarketRow :=
  match check with
  | .error _ => c
  | .ok (some res) =>
      { c with status := "resolved", resolution := some res,
               resolved_at := some now, updated_at := now }
  | .ok none =>
      if c.status == "active" then { c with status := "closed", updated_at := now }
      else c

/-- An active Polymarket market whose end date has passed. -/
def pastEndActiveRow : MarketRow :=
  { platform := "polymarket", market_id := "m1", slug := some "m1-slug",
    title := some "Will it rain?", description := none, category := none,
    outcomes := none, volume := none, liquidity := none,
    end_date := some 100, status := "active", resolution := none,
    resolved_at := none, created_at := 10, updated_at := 10 }

/-- The market of `upsertArgsEx` after the resolve phase marked it
resolved YES at time 150 (see the reachability conjunct of the C2
counterexample). -/
def resolvedRow : MarketRow :=
  { platform := "polymarket", market_id := "m1", slug := none,
    title := some "Will it rain?", description := none, category := none,
    outcomes := none, volume := none, liquidity := none,
    end_date := some 100, status := "resolved", resolution := some "YES",
    resolved_at := some 150, created_at := 10, updated_at := 150 }

/-- A Gamma backfill object for the same market: the venue reports it
closed but NOT resolved, with no collapsed outcome prices. -/
def polyClosedRaw : PolyRaw :=
  { conditionId := some "m1", question := some "Will it rain?",
    closed := true, resolved := false, outcomePrices := some [] }

/-- A resolution response whose 200 body is a settled market with
`outcomePrices` of `"[null]"`: `json.loads` succeeds, then
`float(None)` raises an uncaught TypeError inside `check_resolution`
(polymarket.py lines 235-238 catch only ValueError/IndexError). -/
def polyRaiseResp : String → HttpResult PolyResJson :=
  fun _ => .ok (.obj
    { closed := true, resolved := true, outcomePrices := some [.nonNum] })

/-- An active Polymarket market with a slug, for the snapshot phase. -/
def polyActiveRow : MarketRow :=
  { platform := "polymarket", market_id := "m2", slug := some "slug-m2",
    title := none, description := none, category := none,
    outcomes := none, volume := none, liquidity := none,
    end_date := none, status := "active", resolution := none,
    resolved_at := none, created_at := 0, updated_at := 0 }

/-- A Gamma price response for `polyActiveRow`'s slug with no prices. -/
def polyPriceRespEx : String → Option PolyPriceBody :=
  fun s => if s = "slug-m2" then some { outcomePrices := some [] } else none

/-- The snapshot `fetch_prices` produces from `polyPriceRespEx`. -/
def snapEx : Snap :=
  { market_id := "m2", platform := "polymarket", yes_price := none,
    no_price := none, volume := none, liquidity := none, spread := none }

/-! ### General helper lemmas -/

theorem optGetD_idem {α : Type} (o : Option α) (x : α) :
    o.getD (o.getD x) = o.getD x := by
  cases o <;> rfl

theorem find?_append_of_none {α : Type} {p : α → Bool} {l1 : List α}
    (l2 : List α) (h : l1.find? p = none) :
    (l1 ++ l2).find? p = l2.find? p := by
  induction l1 with
  | nil => rfl
  | cons a t ih =>
      cases hp : p a with
      | true => simp [List.find?_cons, hp] at h
      | false =>
          simp only [List.cons_append, List.find?_cons, hp] at h ⊢
          exact ih h

theorem find?_map_of_pres {α : Type} {p : α → Bool} {g : α → α}
    (hg : ∀ r, p (g r) = p r) (l : List α) :
    (l.map g).find? p = (l.find? p).map g := by
  induction l with
  | nil => rfl
  | cons a t ih =>
      rw [List.map_cons, List.find?_cons, List.find?_cons]
      cases hp : p a with
      | true => simp [hg a, hp]
      | false => simp [hg a, hp, ih]

/-- `mergeRow` never changes the row's key fields. -/
theorem upsertKeyHit_mergeRow (a : UpsertArgs) (r : MarketRow) (now : Nat) :
    upsertKeyHit a (mergeRow r a now) = upsertKeyHit a r := rfl

/-- The freshly inserted row conflicts with its own key. -/
theorem upsertKeyHit_insertRow (a : UpsertArgs) (now : Nat) :
    upsertKeyHit a (insertRow a now) = true := by
  simp [upsertKeyHit, insertRow]

/-- Re-merging identical arguments only refreshes `updated_at`. -/
theorem mergeRow_mergeRow (r : MarketRow) (a : UpsertArgs) (t1 t2 : Nat) :
    mergeRow (mergeRow r a t1) a t2 = { mergeRow r a t1 with updated_at := t2 } := by
  simp [mergeRow, optGetD_idem]

/-- Merging identical arguments onto the freshly INSERTed row only
refreshes `updated_at`. -/
theorem mergeRow_insertRow (a : UpsertArgs) (t1 t2 : Nat) :
    mergeRow (insertRow a t1) a t2 = { insertRow a t1 with updated_at := t2 } := by
  simp only [mergeRow, insertRow, optGetD_idem]
  cases a.outcomes <;> cases a.resolution <;> rfl

/-! ### Claim C6 — repeated upserts touch only `updated_at` -/

/-- C6.  For every market row, repeated `upsert_market` calls with
identical input fields change `updated_at` but no other stored field,
and never change `created_at`: a second upsert of the same arguments
equals the first result with only the matching row's `updated_at`
replaced — in particular the original creation time survives even when
the caller supplies a `created_at` value (the field is in `UpsertArgs`
and excluded from the conflict merge). -/
theorem upsert_repeat_changes_only_updated_at
    (db : Store) (a : UpsertArgs) (t1 t2 : Nat) :
    upsert_market (upsert_market db a t1) a t2 =
      (upsert_market db a t1).map
        (fun r => if upsertKeyHit a r then { r with updated_at := t2 } else r) := by
  unfold upsert_market
  cases h : db.find? (upsertKeyHit a) with
  | none =>
      have hmem : ∀ r ∈ db, ¬ upsertKeyHit a r = true := by
        simpa [List.find?_eq_none] using h
      have hfind : ((db ++ [insertRow a t1]).find? (upsertKeyHit a))
          = some (insertRow a t1) := by
        rw [find?_append_of_none _ h]
        simp [List.find?_cons, upsertKeyHit_insertRow]
      rw [hfind]
      refine List.map_congr_left ?_
      intro r hr
      rcases List.mem_append.mp hr with hdb | hins
      · have : upsertKeyHit a r = false := by
          simpa using hmem r hdb
        simp [this]
      · have : r = insertRow a t1 := by simpa using hins
        subst this
        simp [upsertKeyHit_insertRow, mergeRow_insertRow]
  | some r0 =>
      have hpres : ∀ r, upsertKeyHit a
          (if upsertKeyHit a r then mergeRow r a t1 else r) = upsertKeyHit a r := by
        intro r
        cases hk : upsertKeyHit a r <;> simp [hk, upsertKeyHit_mergeRow]
      have hfind : ((db.map
            (fun r => if upsertKeyHit a r then mergeRow r a t1 else r)).find?
              (upsertKeyHit a))
          = (db.find? (upsertKeyHit a)).map
              (fun r => if upsertKeyHit a r then mergeRow r a t1 else r) := by
        exact find?_map_of_pres hpres db
      rw [hfind, h]
      simp only [Option.map_some']
      simp only [List.map_map]
      refine List.map_congr_left ?_
      intro r _
      cases hk : upsertKeyHit a r with
      | true =>
          simp [Function.comp, hk, upsertKeyHit_mergeRow, mergeRow_mergeRow]
      | false => simp [Function.comp, hk]

/-! ### Claim C5 — exponential backoff law -/

theorem lookup_dictSet (bo : BackoffMap) (k : String) (v : ℚ) :
    (dictSet bo k v).lookup k = some v := by
  simp [dictSet, List.lookup]

theorem lookup_backoffReset (bo : BackoffMap) (k : String) :
    (backoffReset bo k).lookup k = none := by
  induction bo with
  | nil => rfl
  | cons p t ih =>
      simp only [backoffReset, List.filter_cons] at ih ⊢
      by_cases hp : p.1 = k
      · simpa [hp] using ih
      · have hk : (k == p.1) = false := by
          simp [Ne.symm hp]
        simpa [hp, List.lookup, hk] using ih

/-- The delay stored for a key after `n + 1` consecutive failures from
a clear state is `min (2 ^ (n + 1)) 300`. -/
theorem failTimes_lookup (bo : BackoffMap) (k : String)
    (h : bo.lookup k = none) :
    ∀ n, (failTimes bo k (n + 1)).lookup k = some (min ((2:ℚ) ^ (n + 1)) 300) := by
  intro n
  induction n with
  | zero =>
      simp [failTimes, backoffFail, h, lookup_dictSet]
  | succ m ih =>
      show ((backoffFail (failTimes bo k (m + 1)) k).1.lookup k) = _
      rw [backoffFail]
      simp only [ih, Option.getD_some, lookup_dictSet, Option.some.injEq]
      rcases le_total ((2:ℚ) ^ (m + 1)) 300 with hle | hge
      · rw [min_eq_left hle]
        congr 1
        ring
      · have h2 : (300:ℚ) ≤ 2 ^ (m + 1 + 1) :=
          le_trans hge (pow_le_pow_right₀ (by norm_num) (Nat.le_succ (m + 1)))
        rw [min_eq_right hge, min_eq_right h2,
          min_eq_right (by norm_num : (300:ℚ) ≤ 300 * 2)]

/-- The delay slept on the `n + 1`-st consecutive failure of a cleared
domain is `min (2 ^ n) 300`. -/
theorem sleptOn_formula (bo : BackoffMap) (k : String)
    (h : bo.lookup k = none) (n : Nat) :
    sleptOn bo k n = min ((2:ℚ) ^ n) 300 := by
  cases n with
  | zero =>
      simp [sleptOn, failTimes, backoffFail, h]
  | succ m =>
      show (backoffFail (failTimes bo k (m + 1)) k).2 = _
      rw [backoffFail]
      simp [failTimes_lookup bo k h m]

/-- C5.  For each backoff domain key starting clear: the delay slept on
the first failure is the initial 1 second; the delay slept on failure
`n + 1` equals the stored pre-doubling delay (the value
`_sleep_backoff` read before writing the doubled one); the sequence
follows the double-up-to-cap law, is non-decreasing and is bounded by
the 300 s cap; and a success (`_reset_backoff`) clears the key so the
very next failure sleeps the initial 1 second again. -/
theorem backoff_delay_law (bo : BackoffMap) (key : String)
    (h : bo.lookup key = none) :
    sleptOn bo key 0 = 1 ∧
    (∀ n, sleptOn bo key n = ((failTimes bo key n).lookup key).getD 1) ∧
    (∀ n, sleptOn bo key n = min ((2:ℚ) ^ n) 300) ∧
    (∀ n, sleptOn bo key (n + 1) = min (2 * sleptOn bo key n) 300) ∧
    (∀ n, sleptOn bo key n ≤ sleptOn bo key (n + 1)) ∧
    (∀ n, sleptOn bo key n ≤ 300) ∧
    (∀ bo2 : BackoffMap, (backoffFail (backoffReset bo2 key) key).2 = 1) := by
  have hf := sleptOn_formula bo key h
  refine ⟨by simpa using hf 0, fun n => rfl, hf, ?_, ?_, ?_, ?_⟩
  · intro n
    rw [hf n, hf (n + 1)]
    rcases le_total ((2:ℚ) ^ n) 300 with hle | hge
    · rw [min_eq_left hle]
      congr 1
      ring
    · have h2 : (300:ℚ) ≤ 2 ^ (n + 1) :=
        le_trans hge (pow_le_pow_right₀ (by norm_num) (Nat.le_succ n))
      rw [min_eq_right hge, min_eq_right h2,
        min_eq_right (by norm_num : (300:ℚ) ≤ 2 * 300)]
  · intro n
    rw [hf n, hf (n + 1)]
    exact min_le_min (pow_le_pow_right₀ (by norm_num) (Nat.le_succ n)) le_rfl
  · intro n
    rw [hf n]
    exact min_le_right _ _
  · intro bo2
    rw [backoffFail]
    simp [lookup_backoffReset]

/-- Closed witness for `backoff_delay_law` at a concrete domain key. -/
theorem backoff_delay_law_witness :
    ([] : BackoffMap).lookup "poly_discover" = none ∧
    sleptOn [] "poly_discover" 0 = 1 ∧
    sleptOn [] "poly_discover" 3 = min ((2:ℚ) ^ 3) 300 ∧
    sleptOn [] "poly_discover" 3 ≤ 300 :=
  ⟨rfl, (backoff_delay_law [] "poly_discover" rfl).1,
    (backoff_delay_law [] "poly_discover" rfl).2.2.1 3,
    (backoff_delay_law [] "poly_discover" rfl).2.2.2.2.2.1 3⟩

/-! ### Claim C9 — Kalshi price normalisation -/

/-- C9.  `_cents_to_frac` divides by 100 exactly when the raw value
exceeds 1 and keeps it as-is otherwise; and on the venue fields
yes_bid=65, yes_ask=67 the snapshot produced by `fetch_prices` carries
yes_price 0.66 (the bid/ask midpoint), no_price 0.34 (one minus the
yes price) and spread 0.32 (the absolute yes/no difference). -/
theorem kalshi_price_normalisation :
    (∀ v : ℚ, centsToFrac (some v) = some (if v > 1 then v / 100 else v)) ∧
    (kalshiFetchPrices [kalshiTrackedRow] [kalshiScenarioRaw]).map
        (fun s => (s.yes_price, s.no_price, s.spread)) =
      [(some (0.66:ℚ), some (0.34:ℚ), some (0.32:ℚ))] := by
  refine ⟨fun v => rfl, ?_⟩
  norm_num [kalshiFetchPrices, kalshiFetchLoop, kalshiYesPrice, centsToFrac,
    kalshiScenarioRaw, kalshiTrackedRow]

/-! ### Claim C7 — Polymarket resolution detection (corrected) -/

/-- C7 counterexample.  A settled market whose first outcome price
fraction is 199/200 = 0.995 — strictly between 0 and 1 — makes
`check_resolution` return "YES", not absent as the claim states. -/
theorem check_resolution_strict_between_counterexample :
    (0 < (199:ℚ)/200 ∧ (199:ℚ)/200 < 1) ∧
    polyCheckResolution
        (.ok (.obj
          { closed := true, resolved := true,
            outcomePrices := some [.num (199/200)] })) = .ok (some "YES") := by
  constructor
  · constructor <;> norm_num
  · norm_num [polyCheckResolution]

/-- C7 amended.  For a settled Polymarket market the first outcome
price decides by thresholds: at least 0.99 gives "YES", at most 0.01
gives "NO" (in particular exactly 1.0 gives "YES" and exactly 0.0
gives "NO"), and a fraction strictly between 0.01 and 0.99 gives
absent. -/
theorem check_resolution_thresholds (b : PolyResBody) (p : ℚ)
    (rest : List PyFloatArg)
    (hset : b.closed = true ∨ b.resolved = true)
    (hp : b.outcomePrices = some (.num p :: rest)) :
    polyCheckResolution (.ok (.obj b)) =
      .ok (if p ≥ 99/100 then some "YES"
           else if p ≤ 1/100 then some "NO"
           else none) := by
  have hcl : (b.closed || b.resolved) = true := by
    rcases hset with h1 | h1 <;> simp [h1]
  simp [polyCheckResolution, hcl, hp]

/-- Closed witness for `check_resolution_thresholds`: fraction exactly
1.0 on a closed market. -/
theorem check_resolution_thresholds_witness :
    polyCheckResolution
        (.ok (.obj
          { closed := true, resolved := false,
            outcomePrices := some [.num 1] })) =
      .ok (if (1:ℚ) ≥ 99/100 then some "YES"
           else if (1:ℚ) ≤ 1/100 then some "NO"
           else none) :=
  check_resolution_thresholds _ 1 [] (Or.inl rfl) rfl

/-! ### Claim C1 — run_discover drops every discovered market -/

/-- C1.  `run_discover` iterates the `(markets, snapshots)` PAIR that
`discover_markets()` returns as if it were the market list; splatting
the first component (a list) into `upsert_market` raises TypeError,
the bare except swallows it, so for ALL adapter results the store is
unchanged and the returned count is 0 — even though at the
repository's own `test_discover_phase` fixture each adapter returned
one market (the test expects a count of 2 and both rows stored). -/
theorem run_discover_upserts_nothing :
    (∀ (db : Store) (pres kres : List UpsertArgs × List Snap)
        (bo : BackoffMap) (now : Nat),
        (run_discover db true true pres kres bo now).1 = db ∧
        (run_discover db true true pres kres bo now).2.1 = 0) ∧
    (polyDiscoverMarkets polyPagesTest).1.length = 1 ∧
    (kalshiDiscoverMarkets kalshiPagesTest).1.length = 1 :=
  ⟨fun _ _ _ _ _ => ⟨rfl, rfl⟩, rfl, rfl⟩

/-! ### Claim C8 — cross-page deduplication (corrected) -/

/-- A key hit is exactly a key equality. -/
theorem upsertKeyHit_iff (a : UpsertArgs) (r : MarketRow) :
    upsertKeyHit a r = true ↔ keyOfR r = (a.platform, a.market_id) := by
  simp [upsertKeyHit, keyOfR, Prod.ext_iff]

/-- The Polymarket page-accumulation step keeps accumulated ids
distinct and recorded in the seen set. -/
theorem polyAddBatch_inv (batch : List PolyRaw) :
    ∀ (seen : List String) (acc : List PolyRaw) (n : Nat),
      (acc.map cidOf).Nodup → (∀ m ∈ acc, cidOf m ∈ seen) →
      ((polyAddBatch batch seen acc n).2.1.map cidOf).Nodup ∧
        (∀ m ∈ (polyAddBatch batch seen acc n).2.1,
          cidOf m ∈ (polyAddBatch batch seen acc n).1) := by
  induction batch with
  | nil =>
      intro seen acc n h1 h2
      exact ⟨h1, h2⟩
  | cons m rest ih =>
      intro seen acc n h1 h2
      by_cases hc : cidOf m ≠ "" ∧ cidOf m ∉ seen
      · rw [polyAddBatch, if_pos hc]
        apply ih
        · rw [List.map_append]
          simp only [List.map_cons, List.map_nil]
          rw [(List.perm_append_singleton _ _).nodup_iff]
          rw [List.nodup_cons]
          refine ⟨?_, h1⟩
          intro hmem
          rcases List.mem_map.mp hmem with ⟨m2, hm2, he⟩
          exact hc.2 (he ▸ h2 m2 hm2)
        · intro m2 hm2
          rcases List.mem_append.mp hm2 with hacc | hone
          · exact List.mem_cons_of_mem _ (h2 m2 hacc)
          · have : m2 = m := by simpa using hone
            subst this
            exact List.mem_cons_self _ _
      · rw [polyAddBatch, if_neg hc]
        exact ih seen acc n h1 h2

/-- The Polymarket pagination loop only ever returns accumulations with
pairwise-distinct ids. -/
theorem polyFetchGo_nodup (pages : Nat → List PolyRaw) :
    ∀ (fuel offset : Nat) (seen : List String) (acc : List PolyRaw),
      (acc.map cidOf).Nodup → (∀ m ∈ acc, cidOf m ∈ seen) →
      ((polyFetchGo pages fuel offset seen acc).map cidOf).Nodup := by
  intro fuel
  induction fuel with
  | zero =>
      intro offset seen acc h1 _
      exact h1
  | succ f ih =>
      intro offset seen acc h1 h2
      rw [polyFetchGo]
      by_cases ho : offset > 5000
      · rw [if_pos ho]
        exact h1
      rw [if_neg ho]
      by_cases hb : pages offset = []
      · rw [if_pos hb]
        exact h1
      rw [if_neg hb]
      obtain ⟨ha1, ha2⟩ := polyAddBatch_inv (pages offset) seen acc 0 h1 h2
      by_cases hn : (polyAddBatch (pages offset) seen acc 0).2.2 = 0
      · rw [if_pos hn]
        exact ha1
      rw [if_neg hn]
      by_cases hl : (pages offset).length < 100
      · rw [if_pos hl]
        exact ha1
      rw [if_neg hl]
      exact ih (offset + 100) _ _ ha1 ha2

/-- `upsert_market` preserves the UNIQUE key constraint, so duplicates
in an adapter's list collapse to one stored row per key. -/
theorem wellKeyed_upsert (db : Store) (a : UpsertArgs) (now : Nat)
    (h : wellKeyed db) : wellKeyed (upsert_market db a now) := by
  unfold upsert_market
  cases hf : db.find? (upsertKeyHit a) with
  | none =>
      have hmem : ∀ r ∈ db, ¬ upsertKeyHit a r = true := by
        simpa [List.find?_eq_none] using hf
      unfold wellKeyed at h ⊢
      rw [List.map_append]
      simp only [List.map_cons, List.map_nil]
      rw [(List.perm_append_singleton _ _).nodup_iff]
      rw [List.nodup_cons]
      refine ⟨?_, h⟩
      intro hmem2
      rcases List.mem_map.mp hmem2 with ⟨r, hr, he⟩
      have : keyOfR (insertRow a now) = (a.platform, a.market_id) := rfl
      exact hmem r hr ((upsertKeyHit_iff a r).mpr (he.trans this))
  | some _ =>
      unfold wellKeyed at h ⊢
      rw [List.map_map]
      have hcomp :
          (keyOfR ∘ fun r => if upsertKeyHit a r then mergeRow r a now else r)
            = keyOfR := by
        funext r
        cases hk : upsertKeyHit a r
        · simp only [Function.comp, hk, Bool.false_eq_true, if_false]
        · simp only [Function.comp, hk, if_true]
          rfl
      rw [hcomp]
      exact h

/-- C8 counterexample.  Two Kalshi pages both containing ticker
TEST-TICKER: the market list `discover_markets` returns contains TWO
entries with that id — the Kalshi pagination loop does not
deduplicate. -/
theorem kalshi_discover_duplicate_ids :
    ((kalshiDiscoverMarkets kalshiDupPages).1.filter
        (fun a => a.market_id == "TEST-TICKER")).length = 2 := by
  rfl

/-- C8 amended.  The Polymarket adapter does deduplicate by market id
across pages (its discovered market list always carries
pairwise-distinct ids), while the Kalshi adapter's list may repeat an
id; one stored market per id still results whenever the markets are
written through `upsert_market`, because the upsert preserves the
store's `(platform, market_id)` uniqueness. -/
theorem discover_dedup_amended :
    (∀ pages : Nat → List PolyRaw,
        ((polyDiscoverMarkets pages).1.map (fun a => a.market_id)).Nodup) ∧
    (∀ (db : Store) (a : UpsertArgs) (now : Nat),
        wellKeyed db → wellKeyed (upsert_market db a now)) := by
  constructor
  · intro pages
    have hmap : (polyDiscoverMarkets pages).1.map (fun a => a.market_id)
        = (polyFetchAllMarkets pages).map cidOf := by
      simp only [polyDiscoverMarkets, List.map_map]
      exact List.map_congr_left (fun a _ => rfl)
    rw [hmap]
    exact polyFetchGo_nodup pages 52 0 [] [] (by simp) (by simp)
  · exact wellKeyed_upsert

/-- Closed witness for `discover_dedup_amended`. -/
theorem discover_dedup_amended_witness :
    ((polyDiscoverMarkets polyPagesTest).1.map (fun a => a.market_id)).Nodup ∧
    wellKeyed (upsert_market [] upsertArgsEx 5) :=
  ⟨discover_dedup_amended.1 polyPagesTest,
    discover_dedup_amended.2 [] upsertArgsEx 5 (by simp [wellKeyed])⟩

/-! ### Resolve-phase helper lemmas (shared by C2, C3, C4) -/

theorem rowKeyHit_iff (r : MarketRow) (p mid : String) :
    (r.platform == p && r.market_id == mid) = true ↔ keyOfR r = (p, mid) := by
  simp [keyOfR, Prod.ext_iff]

/-- A per-key UPDATE with a key-preserving transformer does not touch
rows of any other key: every pointwise property of the rows with key
`k` survives it. -/
theorem updWhere_keep {p mid : String} {f : MarketRow → MarketRow}
    (hf : ∀ r, keyOfR (f r) = keyOfR r) {k : String × String}
    (hne : k ≠ (p, mid)) {l : Store} {φ : MarketRow → Prop}
    (H : ∀ r ∈ l, keyOfR r = k → φ r) :
    ∀ r ∈ updWhere p mid f l, keyOfR r = k → φ r := by
  intro r hr hk
  rcases List.mem_map.mp hr with ⟨r0, hr0, he⟩
  subst he
  by_cases hcond : (r0.platform == p && r0.market_id == mid) = true
  · rw [if_pos hcond] at hk ⊢
    rw [hf r0] at hk
    exact absurd (hk ▸ (rowKeyHit_iff r0 p mid).mp hcond) hne
  · rw [if_neg hcond] at hk ⊢
    exact H r0 hr0 hk

/-- A per-key UPDATE with a key-preserving transformer keeps a row of
every key that was present. -/
theorem updWhere_exists {p mid : String} {f : MarketRow → MarketRow}
    (hf : ∀ r, keyOfR (f r) = keyOfR r) {k : String × String} {l : Store}
    (H : ∃ r ∈ l, keyOfR r = k) :
    ∃ r ∈ updWhere p mid f l, keyOfR r = k := by
  rcases H with ⟨r, hr, hk⟩
  refine ⟨if (r.platform == p && r.market_id == mid) = true then f r else r,
    List.mem_map_of_mem _ hr, ?_⟩
  by_cases hcond : (r.platform == p && r.market_id == mid) = true
  · rw [if_pos hcond, hf r]
    exact hk
  · rw [if_neg hcond]
    exact hk

theorem mark_resolved_key (res : String) (now : Nat) (r : MarketRow) :
    keyOfR { r with status := "resolved", resolution := some res,
                    resolved_at := some now, updated_at := now } = keyOfR r := rfl

theorem mark_closed_key (now : Nat) (r : MarketRow) :
    keyOfR { r with status := "closed", updated_at := now } = keyOfR r := rfl

/-- One resolve-loop iteration for a candidate with a DIFFERENT key
preserves every pointwise property of the rows with key `k`. -/
theorem resolveStep_keep (pe ke : Bool)
    (pResp : String → HttpResult PolyResJson)
    (kResp : String → HttpResult KalshiResJson) (now : Nat)
    (acc : Store × Nat) (d : MarketRow) {k : String × String}
    (hne : k ≠ keyOfR d) {φ : MarketRow → Prop}
    (H : ∀ r ∈ acc.1, keyOfR r = k → φ r) :
    ∀ r ∈ (resolveStep pe ke pResp kResp now acc d).1, keyOfR r = k → φ r := by
  have hne2 : k ≠ (d.platform, d.market_id) := hne
  unfold resolveStep
  cases hE : enabledFor pe ke d.platform with
  | false =>
      simp only [hE, Bool.false_eq_true, if_false]
      exact H
  | true =>
      simp only [hE, if_true]
      cases hc : checkFor pResp kResp d.platform d.market_id with
      | error e => exact H
      | ok o =>
          cases o with
          | some res =>
              exact updWhere_keep (mark_resolved_key res now) hne2 H
          | none =>
              cases hs : (d.status == "active") with
              | true =>
                  simp only [hs, if_true]
                  exact updWhere_keep (mark_closed_key now) hne2 H
              | false =>
                  simp only [hs, Bool.false_eq_true, if_false]
                  exact H

/-- One resolve-loop iteration keeps a row of every key that was
present. -/
theorem resolveStep_exists (pe ke : Bool)
    (pResp : String → HttpResult PolyResJson)
    (kResp : String → HttpResult KalshiResJson) (now : Nat)
    (acc : Store × Nat) (d : MarketRow) {k : String × String}
    (H : ∃ r ∈ acc.1, keyOfR r = k) :
    ∃ r ∈ (resolveStep pe ke pResp kResp now acc d).1, keyOfR r = k := by
  unfold resolveStep
  cases hE : enabledFor pe ke d.platform with
  | false =>
      simpa only [hE, Bool.false_eq_true, if_false] using H
  | true =>
      simp only [hE, if_true]
      cases hc : checkFor pResp kResp d.platform d.market_id with
      | error e => exact H
      | ok o =>
          cases o with
          | some res =>
              exact updWhere_exists (mark_resolved_key res now) H
          | none =>
              cases hs : (d.status == "active") with
              | true =>
                  simp only [hs, if_true]
                  exact updWhere_exists (mark_closed_key now) H
              | false =>
                  simpa only [hs, Bool.false_eq_true, if_false] using H

/-- One resolve-loop iteration on the candidate itself: when every row
carrying the candidate's key equals the candidate, afterwards every
such row equals `resolveTransform` of the candidate. -/
theorem resolveStep_self (pe ke : Bool)
    (pResp : String → HttpResult PolyResJson)
    (kResp : String → HttpResult KalshiResJson) (now : Nat)
    (acc : Store × Nat) (c : MarketRow)
    (hE : enabledFor pe ke c.platform = true)
    (Hacc : ∀ r ∈ acc.1, keyOfR r = keyOfR c → r = c) :
    ∀ r ∈ (resolveStep pe ke pResp kResp now acc c).1, keyOfR r = keyOfR c →
      r = resolveTransform c (checkFor pResp kResp c.platform c.market_id) now := by
  intro r hr hk
  unfold resolveStep at hr
  rw [hE] at hr
  simp only [if_true] at hr
  cases hc : checkFor pResp kResp c.platform c.market_id with
  | error e =>
      rw [hc] at hr
      rw [Hacc r hr hk]
      simp [resolveTransform]
  | ok o =>
      rw [hc] at hr
      cases o with
      | some res =>
          rcases List.mem_map.mp hr with ⟨r0, hr0, he⟩
          subst he
          by_cases hcond : (r0.platform == c.platform && r0.market_id == c.market_id)
              = true
          · rw [if_pos hcond] at hk ⊢
            have hkey : keyOfR r0 = keyOfR c := (rowKeyHit_iff r0 _ _).mp hcond
            rw [Hacc r0 hr0 hkey]
            simp [resolveTransform]
          · rw [if_neg hcond] at hk
            exact absurd ((rowKeyHit_iff r0 _ _).mpr hk) hcond
      | none =>
          cases hs : (c.status == "active") with
          | true =>
              rw [hs] at hr
              simp only [if_true] at hr
              rcases List.mem_map.mp hr with ⟨r0, hr0, he⟩
              subst he
              by_cases hcond : (r0.platform == c.platform && r0.market_id == c.market_id)
                  = true
              · rw [if_pos hcond] at hk ⊢
                have hkey : keyOfR r0 = keyOfR c := (rowKeyHit_iff r0 _ _).mp hcond
                rw [Hacc r0 hr0 hkey]
                simp [resolveTransform, hs]
              · rw [if_neg hcond] at hk
                exact absurd ((rowKeyHit_iff r0 _ _).mpr hk) hcond
          | false =>
              rw [hs] at hr
              simp only [Bool.false_eq_true, if_false] at hr
              rw [Hacc r hr hk]
              simp [resolveTransform, hs]

/-- Folding the resolve loop over candidates whose keys all differ
from `k` preserves every pointwise property of the rows with key
`k`. -/
theorem foldl_resolveStep_keep (pe ke : Bool)
    (pResp : String → HttpResult PolyResJson)
    (kResp : String → HttpResult KalshiResJson) (now : Nat)
    (l : List MarketRow) :
    ∀ (acc : Store × Nat) {k : String × String} {φ : MarketRow → Prop},
      (∀ d ∈ l, keyOfR d ≠ k) →
      (∀ r ∈ acc.1, keyOfR r = k → φ r) →
      ∀ r ∈ (l.foldl (resolveStep pe ke pResp kResp now) acc).1,
        keyOfR r = k → φ r := by
  induction l with
  | nil =>
      intro acc k φ _ H
      exact H
  | cons d t ih =>
      intro acc k φ hne H
      rw [List.foldl_cons]
      exact ih _ (fun x hx => hne x (List.mem_cons_of_mem _ hx))
        (resolveStep_keep pe ke pResp kResp now acc d
          (Ne.symm (hne d (List.mem_cons_self _ _))) H)

/-- Folding the resolve loop keeps a row of every key present. -/
theorem foldl_resolveStep_exists (pe ke : Bool)
    (pResp : String → HttpResult PolyResJson)
    (kResp : String → HttpResult KalshiResJson) (now : Nat)
    (l : List MarketRow) :
    ∀ (acc : Store × Nat) {k : String × String},
      (∃ r ∈ acc.1, keyOfR r = k) →
      ∃ r ∈ (l.foldl (resolveStep pe ke pResp kResp now) acc).1, keyOfR r = k := by
  induction l with
  | nil =>
      intro acc k H
      exact H
  | cons d t ih =>
      intro acc k H
      rw [List.foldl_cons]
      exact ih _ (resolveStep_exists pe ke pResp kResp now acc d H)

theorem mem_candidates_mem_db {db : Store} {now : Nat} {c : MarketRow}
    (hc : c ∈ get_unresolved_past_end db now) : c ∈ db := by
  unfold get_unresolved_past_end at hc
  have := (List.perm_insertionSort
    (fun x y : MarketRow => x.end_date.getD 0 ≤ y.end_date.getD 0) _).mem_iff.mp hc
  exact (List.mem_filter.mp this).1

theorem mem_candidates_status {db : Store} {now : Nat} {c : MarketRow}
    (hc : c ∈ get_unresolved_past_end db now) :
    c.status = "active" ∨ c.status = "closed" := by
  unfold get_unresolved_past_end at hc
  have := (List.perm_insertionSort
    (fun x y : MarketRow => x.end_date.getD 0 ≤ y.end_date.getD 0) _).mem_iff.mp hc
  have hfilt := (List.mem_filter.mp this).2
  rcases Bool.and_eq_true_iff.mp hfilt with ⟨hor, _⟩
  rcases Bool.or_eq_true_iff.mp hor with h1 | h1
  · exact Or.inl (by simpa using h1)
  · exact Or.inr (by simpa using h1)

theorem candidates_keys_nodup {db : Store} (now : Nat) (hwk : wellKeyed db) :
    ((get_unresolved_past_end db now).map keyOfR).Nodup := by
  unfold get_unresolved_past_end
  have hperm := List.perm_insertionSort
    (fun x y : MarketRow => x.end_date.getD 0 ≤ y.end_date.getD 0)
    (db.filter (fun r =>
      (r.status == "active" || r.status == "closed") &&
        (match r.end_date with
         | none => false
         | some e => decide (e ≤ now))))
  refine (hperm.map keyOfR).nodup_iff.mpr ?_
  exact ((List.filter_sublist db).map keyOfR).nodup hwk

theorem wellKeyed_inj {db : Store} (hwk : wellKeyed db) {a b : MarketRow}
    (ha : a ∈ db) (hb : b ∈ db) (hk : keyOfR a = keyOfR b) : a = b :=
  List.inj_on_of_nodup_map hwk ha hb hk

/-- MAIN resolve lemma.  For a well-keyed store, each candidate whose
dispatched adapter is enabled ends one `run_resolve` pass with all and
only the rows of its key equal to `resolveTransform` of the candidate
at the adapter's answer. -/
theorem resolve_candidate_final (pe ke : Bool)
    (pResp : String → HttpResult PolyResJson)
    (kResp : String → HttpResult KalshiResJson)
    (db : Store) (now : Nat) (c : MarketRow)
    (hwk : wellKeyed db) (hc : c ∈ get_unresolved_past_end db now)
    (hE : enabledFor pe ke c.platform = true) :
    (∃ r ∈ (run_resolve pe ke pResp kResp db now).1, keyOfR r = keyOfR c) ∧
    ∀ r ∈ (run_resolve pe ke pResp kResp db now).1, keyOfR r = keyOfR c →
      r = resolveTransform c (checkFor pResp kResp c.platform c.market_id) now := by
  obtain ⟨l1, l2, hdecomp⟩ := List.append_of_mem hc
  have hnd := candidates_keys_nodup now hwk
  rw [hdecomp] at hnd
  rw [List.map_append, List.map_cons] at hnd
  rcases List.nodup_append.mp hnd with ⟨_, hnd2, hdisj⟩
  have h1 : ∀ d ∈ l1, keyOfR d ≠ keyOfR c := by
    intro d hd he
    exact hdisj (List.mem_map_of_mem keyOfR hd) (he ▸ List.mem_cons_self _ _)
  have h2 : ∀ d ∈ l2, keyOfR d ≠ keyOfR c := by
    intro d hd he
    exact (List.nodup_cons.mp hnd2).1 (he ▸ List.mem_map_of_mem keyOfR hd)
  unfold run_resolve
  rw [hdecomp, List.foldl_append, List.foldl_cons]
  have Q0 : ∀ r ∈ db, keyOfR r = keyOfR c → r = c :=
    fun r hr hk => wellKeyed_inj hwk hr (mem_candidates_mem_db hc) hk
  have E0 : ∃ r ∈ db, keyOfR r = keyOfR c :=
    ⟨c, mem_candidates_mem_db hc, rfl⟩
  have QA := foldl_resolveStep_keep pe ke pResp kResp now l1 (db, 0) h1 Q0
  have EA := foldl_resolveStep_exists pe ke pResp kResp now l1 (db, 0) E0
  have QB := resolveStep_self pe ke pResp kResp now _ c hE QA
  have EB := resolveStep_exists pe ke pResp kResp now _ c EA
  exact ⟨foldl_resolveStep_exists pe ke pResp kResp now l2 _ EB,
    foldl_resolveStep_keep pe ke pResp kResp now l2 _ h2 QB⟩

/-! ### Claim C4 — candidate status after a resolve pass (corrected) -/

/-- C4 counterexample.  The claim says an enabled candidate never
remains Active, but when `check_resolution` RAISES past its own
handler — here a settled 200 body with `outcomePrices` `"[null]"`, so
`float(None)` raises a TypeError not caught by the
`except (ValueError, IndexError)` — `run_resolve`'s per-candidate
except (daemon.py 141-142) leaves the Active candidate untouched: the
store is returned unchanged and the market is still Active. -/
theorem resolve_raise_leaves_active_counterexample :
    pastEndActiveRow.status = "active" ∧
    enabledFor true true pastEndActiveRow.platform = true ∧
    pastEndActiveRow ∈ get_unresolved_past_end [pastEndActiveRow] 200 ∧
    (run_resolve true true polyRaiseResp (fun _ => HttpResult.netErr)
        [pastEndActiveRow] 200).1 = [pastEndActiveRow] :=
  ⟨rfl, rfl, by decide, rfl⟩

/-- C4 amended.  For every candidate of the unresolved-past-end query
whose dispatched adapter is enabled: when the resolution check returns
without raising, the candidate ends the pass Resolved or Closed, never
Active (Resolved with resolution and `resolved_at` recorded when the
outcome was definite); but when the check raises — an uncaught
TypeError/AttributeError escaping the client's narrow handlers — the
daemon's per-candidate except leaves the row unchanged, so an Active
candidate then remains Active. -/
theorem resolve_pass_candidate_dichotomy (pe ke : Bool)
    (pResp : String → HttpResult PolyResJson)
    (kResp : String → HttpResult KalshiResJson)
    (db : Store) (now : Nat) (c : MarketRow)
    (hwk : wellKeyed db) (hc : c ∈ get_unresolved_past_end db now)
    (hE : enabledFor pe ke c.platform = true) :
    (∃ r ∈ (run_resolve pe ke pResp kResp db now).1, keyOfR r = keyOfR c) ∧
    ∀ r ∈ (run_resolve pe ke pResp kResp db now).1, keyOfR r = keyOfR c →
      ((∀ o, checkFor pResp kResp c.platform c.market_id = .ok o →
         ((r.status = "resolved" ∨ r.status = "closed") ∧
          ∀ res, o = some res →
            r.status = "resolved" ∧ r.resolution = some res ∧
              r.resolved_at = some now)) ∧
       (∀ e, checkFor pResp kResp c.platform c.market_id = .error e →
         r = c)) := by
  obtain ⟨hex, hall⟩ :=
    resolve_candidate_final pe ke pResp kResp db now c hwk hc hE
  refine ⟨hex, ?_⟩
  intro r hr hk
  have hre := hall r hr hk
  constructor
  · intro o ho
    rw [ho] at hre
    cases o with
    | some res =>
        refine ⟨Or.inl (by rw [hre]; simp [resolveTransform]), ?_⟩
        intro res2 h2
        cases h2
        rw [hre]
        exact ⟨rfl, rfl, rfl⟩
    | none =>
        refine ⟨?_, ?_⟩
        · rcases mem_candidates_status hc with hs | hs
          · right
            rw [hre]
            simp [resolveTransform, hs]
          · right
            rw [hre]
            simp [resolveTransform, hs]
        · intro res2 h2
          exact Option.noConfusion h2
  · intro e he
    rw [he] at hre
    exact hre

/-- Closed witness for `resolve_pass_candidate_dichotomy`: a single
active Polymarket candidate past its end date, checked while the venue
is unreachable (the request exception is caught by the client, so the
check returns without raising). -/
theorem resolve_pass_candidate_dichotomy_witness :
    (∃ r ∈ (run_resolve true true (fun _ => HttpResult.netErr)
        (fun _ => HttpResult.netErr) [pastEndActiveRow] 200).1,
      keyOfR r = keyOfR pastEndActiveRow) ∧
    ∀ r ∈ (run_resolve true true (fun _ => HttpResult.netErr)
        (fun _ => HttpResult.netErr) [pastEndActiveRow] 200).1,
      keyOfR r = keyOfR pastEndActiveRow →
      ((∀ o, checkFor (fun _ => HttpResult.netErr) (fun _ => HttpResult.netErr)
           pastEndActiveRow.platform pastEndActiveRow.market_id = .ok o →
         ((r.status = "resolved" ∨ r.status = "closed") ∧
          ∀ res, o = some res →
            r.status = "resolved" ∧ r.resolution = some res ∧
              r.resolved_at = some 200)) ∧
       (∀ e, checkFor (fun _ => HttpResult.netErr) (fun _ => HttpResult.netErr)
           pastEndActiveRow.platform pastEndActiveRow.market_id = .error e →
         r = pastEndActiveRow)) :=
  resolve_pass_candidate_dichotomy true true (fun _ => HttpResult.netErr)
    (fun _ => HttpResult.netErr) [pastEndActiveRow] 200 pastEndActiveRow
    (by simp [wellKeyed]) (by decide) rfl

/-! ### Claim C3 — resolution-check failure handling (corrected) -/

/-- C3 counterexample.  A network failure of the resolution check does
NOT leave the market's status unchanged: the adapter swallows the
error and reports "no resolution", so the daemon marks the Active
candidate Closed. -/
theorem resolve_failure_closes_active_counterexample :
    pastEndActiveRow.status = "active" ∧
    (run_resolve true true (fun _ => HttpResult.netErr)
        (fun _ => HttpResult.netErr) [pastEndActiveRow] 200).1
      = [{ pastEndActiveRow with status := "closed", updated_at := 200 }] :=
  ⟨rfl, rfl⟩

/-- C3 amended.  When the dispatched resolution request fails with a
network/parse error, the client catches and logs it and returns "no
resolution"; the candidate is checked once per cycle, its resolution
and `resolved_at` are left unchanged, its status is unchanged when it
was already Closed — but an Active candidate is marked Closed. -/
theorem resolve_network_failure_behavior (pe ke : Bool)
    (pResp : String → HttpResult PolyResJson)
    (kResp : String → HttpResult KalshiResJson)
    (db : Store) (now : Nat) (c : MarketRow)
    (hwk : wellKeyed db) (hc : c ∈ get_unresolved_past_end db now)
    (hE : enabledFor pe ke c.platform = true)
    (herr : if (c.platform == "polymarket") = true
            then pResp c.market_id = HttpResult.netErr
            else kResp c.market_id = HttpResult.netErr) :
    (∃ r ∈ (run_resolve pe ke pResp kResp db now).1, keyOfR r = keyOfR c) ∧
    ∀ r ∈ (run_resolve pe ke pResp kResp db now).1, keyOfR r = keyOfR c →
      (r.resolution = c.resolution ∧ r.resolved_at = c.resolved_at ∧
       r.status = (if c.status = "active" then "closed" else c.status)) := by
  have hchk : checkFor pResp kResp c.platform c.market_id = .ok none := by
    unfold checkFor
    cases hb : (c.platform == "polymarket") with
    | true =>
        rw [hb] at herr
        simp only [if_true] at herr ⊢
        rw [herr]
        rfl
    | false =>
        rw [hb] at herr
        simp only [Bool.false_eq_true, if_false] at herr ⊢
        rw [herr]
        rfl
  obtain ⟨hex, hall⟩ :=
    resolve_candidate_final pe ke pResp kResp db now c hwk hc hE
  refine ⟨hex, ?_⟩
  intro r hr hk
  rw [hall r hr hk, hchk]
  by_cases hs : c.status = "active"
  · simp [resolveTransform, hs]
  · simp [resolveTransform, hs]

/-- Closed witness for `resolve_network_failure_behavior`. -/
theorem resolve_network_failure_behavior_witness :
    (∃ r ∈ (run_resolve true true (fun _ => HttpResult.netErr)
        (fun _ => HttpResult.netErr) [pastEndActiveRow] 200).1,
      keyOfR r = keyOfR pastEndActiveRow) ∧
    ∀ r ∈ (run_resolve true true (fun _ => HttpResult.netErr)
        (fun _ => HttpResult.netErr) [pastEndActiveRow] 200).1,
      keyOfR r = keyOfR pastEndActiveRow →
      (r.resolution = pastEndActiveRow.resolution ∧
       r.resolved_at = pastEndActiveRow.resolved_at ∧
       r.status = (if pastEndActiveRow.status = "active" then "closed"
                   else pastEndActiveRow.status)) :=
  resolve_network_failure_behavior true true (fun _ => HttpResult.netErr)
    (fun _ => HttpResult.netErr) [pastEndActiveRow] 200 pastEndActiveRow
    (by simp [wellKeyed]) (by decide) rfl rfl

/-! ### Claim C2 — Resolved terminality (corrected) -/

/-- C2 counterexample.  A market resolved YES by the resolve phase (the
first conjunct shows the store is reachable by `upsert_market` then
`mark_resolved`) is reverted to status "closed" by a backfill pass in
which the venue reports it closed-but-not-resolved: the upsert merges
the adapter-supplied status over "resolved". -/
theorem backfill_reverts_resolved_counterexample :
    mark_resolved (upsert_market [] upsertArgsEx 10) "polymarket" "m1" "YES" 150
      = [resolvedRow] ∧
    resolvedRow.status = "resolved" ∧
    (findRow (run_backfill [resolvedRow] true false
        [polyNormaliseResolved polyClosedRaw] [] 300).1 "polymarket" "m1").map
        (fun r => r.status)
      = some "closed" :=
  ⟨rfl, rfl, rfl⟩

/-- C2 amended.  A market whose stored status is Resolved is never
changed by the resolve phase (its query excludes resolved rows and the
per-candidate updates touch only candidate keys) — and the snapshot
phase writes no market rows at all, while `run_discover` as coded
upserts nothing; but the upserts of the backfill phase merge the
adapter-supplied status and can revert a Resolved market (see the
counterexample). -/
theorem resolved_rows_survive_resolve (pe ke : Bool)
    (pResp : String → HttpResult PolyResJson)
    (kResp : String → HttpResult KalshiResJson)
    (db : Store) (now : Nat) (r0 : MarketRow)
    (hwk : wellKeyed db) (hr0 : r0 ∈ db) (hres : r0.status = "resolved") :
    (∃ r ∈ (run_resolve pe ke pResp kResp db now).1, keyOfR r = keyOfR r0) ∧
    ∀ r ∈ (run_resolve pe ke pResp kResp db now).1, keyOfR r = keyOfR r0 →
      r = r0 := by
  have hK : ∀ d ∈ get_unresolved_past_end db now, keyOfR d ≠ keyOfR r0 := by
    intro d hd he
    have hddb := mem_candidates_mem_db hd
    have hd0 : d = r0 := wellKeyed_inj hwk hddb hr0 he
    subst hd0
    rcases mem_candidates_status hd with h | h <;> rw [hres] at h <;>
      exact absurd h (by decide)
  have Q0 : ∀ r ∈ db, keyOfR r = keyOfR r0 → r = r0 :=
    fun r hr hk => wellKeyed_inj hwk hr hr0 hk
  exact ⟨foldl_resolveStep_exists pe ke pResp kResp now _ _ ⟨r0, hr0, rfl⟩,
    foldl_resolveStep_keep pe ke pResp kResp now _ _ hK Q0⟩

/-- Closed witness for `resolved_rows_survive_resolve`. -/
theorem resolved_rows_survive_resolve_witness :
    (∃ r ∈ (run_resolve true true (fun _ => HttpResult.netErr)
        (fun _ => HttpResult.netErr) [resolvedRow] 200).1,
      keyOfR r = keyOfR resolvedRow) ∧
    ∀ r ∈ (run_resolve true true (fun _ => HttpResult.netErr)
        (fun _ => HttpResult.netErr) [resolvedRow] 200).1,
      keyOfR r = keyOfR resolvedRow → r = resolvedRow :=
  resolved_rows_survive_resolve true true (fun _ => HttpResult.netErr)
    (fun _ => HttpResult.netErr) [resolvedRow] 200 resolvedRow
    (by simp [wellKeyed]) (List.mem_singleton.mpr rfl) rfl

/-! ### Claim C10 — the snapshot phase touches only active markets -/

theorem polySnapOfBody_fields (mid : String) (body : PolyPriceBody)
    (snap : Snap) (h : polySnapOfBody mid body = .ok snap) :
    snap.market_id = mid ∧ snap.platform = "polymarket" := by
  unfold polySnapOfBody at h
  split at h
  · cases h
    exact ⟨rfl, rfl⟩
  · split at h
    · cases h
    · split at h
      · cases h
        exact ⟨rfl, rfl⟩
      · split at h
        · cases h
        · cases h
          exact ⟨rfl, rfl⟩

theorem polyFetchLoop_mem (resp : String → Option PolyPriceBody) :
    ∀ (l : Store) (snaps : List Snap), polyFetchLoop resp l = .ok snaps →
      ∀ s ∈ snaps, ∃ mkt ∈ l, s.market_id = mkt.market_id ∧
        s.platform = "polymarket" := by
  intro l
  induction l with
  | nil =>
      intro snaps h s hs
      cases h
      exact absurd hs (List.not_mem_nil s)
  | cons mkt rest ih =>
      intro snaps h s hs
      rw [polyFetchLoop] at h
      split at h
      · rcases ih snaps h s hs with ⟨m2, hm2, hp⟩
        exact ⟨m2, List.mem_cons_of_mem _ hm2, hp⟩
      · split at h
        · rcases ih snaps h s hs with ⟨m2, hm2, hp⟩
          exact ⟨m2, List.mem_cons_of_mem _ hm2, hp⟩
        · split at h
          · rcases ih snaps h s hs with ⟨m2, hm2, hp⟩
            exact ⟨m2, List.mem_cons_of_mem _ hm2, hp⟩
          · rename_i body heqb
            split at h
            · exact Except.noConfusion h
            · rename_i snap heqs
              split at h
              · exact Except.noConfusion h
              · rename_i tail heqt
                cases h
                rcases List.mem_cons.mp hs with he | hs2
                · obtain ⟨h1, h2⟩ :=
                    polySnapOfBody_fields mkt.market_id body snap heqs
                  rw [he]
                  exact ⟨mkt, List.mem_cons_self _ _, h1, h2⟩
                · rcases ih tail heqt s hs2 with ⟨m2, hm2, hp⟩
                  exact ⟨m2, List.mem_cons_of_mem _ hm2, hp⟩

theorem kalshiFetchLoop_mem (tracked : List String) :
    ∀ (raw : List KalshiRaw), ∀ s ∈ kalshiFetchLoop tracked raw,
      s.market_id ∈ tracked ∧ s.platform = "kalshi" := by
  intro raw
  induction raw with
  | nil =>
      intro s hs
      exact absurd hs (List.not_mem_nil s)
  | cons m rest ih =>
      intro s hs
      rw [kalshiFetchLoop] at hs
      split at hs
      · exact ih s hs
      · rename_i ht
        rcases List.mem_cons.mp hs with he | hs2
        · subst he
          exact ⟨not_not.mp ht, rfl⟩
        · exact ih s hs2

theorem snapshotPolyPart_mem (db : Store) (pe : Bool)
    (polyResp : String → Option PolyPriceBody) :
    ∀ s ∈ (snapshotPolyPart db pe polyResp).1,
      ∃ r ∈ db, r.platform = s.platform ∧ r.market_id = s.market_id ∧
        r.status = "active" := by
  intro s hs
  unfold snapshotPolyPart at hs
  split at hs
  · split at hs
    · exact absurd hs (List.not_mem_nil s)
    · split at hs
      · rename_i snaps hsnaps
        rcases polyFetchLoop_mem polyResp _ snaps hsnaps s hs with
          ⟨mkt, hmkt, h1, h2⟩
        have hact : mkt ∈ get_markets_by_status db "active" (some "polymarket") :=
          List.take_subset 200 _ hmkt
        have hfil := List.mem_filter.mp hact
        rcases Bool.and_eq_true_iff.mp hfil.2 with ⟨hst, hpl⟩
        refine ⟨mkt, hfil.1, ?_, h1.symm, by simpa using hst⟩
        rw [h2]
        simpa using hpl
      · exact absurd hs (List.not_mem_nil s)
  · exact absurd hs (List.not_mem_nil s)

theorem snapshotKalshiPart_mem (db : Store) (ke : Bool)
    (kalshiOpen : Except String (List KalshiRaw)) :
    ∀ s ∈ (snapshotKalshiPart db ke kalshiOpen).1,
      ∃ r ∈ db, r.platform = s.platform ∧ r.market_id = s.market_id ∧
        r.status = "active" := by
  intro s hs
  unfold snapshotKalshiPart at hs
  split at hs
  · split at hs
    · exact absurd hs (List.not_mem_nil s)
    · split at hs
      · obtain ⟨hid, hpl⟩ := kalshiFetchLoop_mem _ _ s hs
        rcases List.mem_map.mp hid with ⟨mkt, hmkt, he⟩
        have hfil := List.mem_filter.mp hmkt
        rcases Bool.and_eq_true_iff.mp hfil.2 with ⟨hst, hplat⟩
        refine ⟨mkt, hfil.1, ?_, he, by simpa using hst⟩
        rw [hpl]
        simpa using hplat
      · exact absurd hs (List.not_mem_nil s)
  · exact absurd hs (List.not_mem_nil s)

/-- C10.  `run_snapshot` hands `fetch_prices` exactly the markets the
status-"active" query for the adapter's platform returned (see
`snapshotPolyPart`/`snapshotKalshiPart`), so every snapshot the phase
inserts belongs to a market stored as active on that platform — closed
or resolved markets never receive snapshot-phase prices. -/
theorem snapshot_only_active (db : Store) (pe ke : Bool)
    (polyResp : String → Option PolyPriceBody)
    (kalshiOpen : Except String (List KalshiRaw)) :
    ∀ s ∈ (run_snapshot db pe ke polyResp kalshiOpen).1,
      ∃ r ∈ db, r.platform = s.platform ∧ r.market_id = s.market_id ∧
        r.status = "active" := by
  intro s hs
  rcases List.mem_append.mp hs with h | h
  · exact snapshotPolyPart_mem db pe polyResp s h
  · exact snapshotKalshiPart_mem db ke kalshiOpen s h

/-- Closed witness for `snapshot_only_active`. -/
theorem snapshot_only_active_witness :
    ∃ r ∈ [polyActiveRow], r.platform = snapEx.platform ∧
      r.market_id = snapEx.market_id ∧ r.status = "active" :=
  snapshot_only_active [polyActiveRow] true false polyPriceRespEx
    (Except.error "ConnectError") snapEx (List.mem_singleton.mpr rfl)

end Polymaster
